import Mathlib

/-!
Verification of the m365-entra-ip-block-lists utilities.

The repository consists of three Python scripts operating on flat text
files of IPv4 CIDR entries:

* `scripts/validate.py` — per-line CIDR validation and duplicate detection;
* `scripts/chunk.py`    — splitting entry lists into bounded-size chunks;
* `scripts/fetch.py`    — fetching provider IP ranges, parsing, and persisting.

This file gives a shallow embedding of those scripts.  Python strings are
modelled as Lean `String`s; the string primitives the scripts rely on
(`str.strip`, `str.startswith`, `str.split`, `str.partition`) are modelled
by explicit recursion over the underlying character list, so that every
definition is executable and provable by ordinary induction.

The scripts parse CIDR text with CPython's `ipaddress.ip_network`
(always called with `strict=False`).  That library function is embedded
below (`ip_network`), following the CPython implementation:

* IPv4: exactly four dot-separated decimal octets, each at most three
  digits, no leading zeros, value at most 255; an optional suffix after
  the first `/` that is either a decimal prefix length (at most 32) or a
  dotted-quad netmask/hostmask;
* IPv6: the colon-group algorithm of `_ip_int_from_string` (at most one
  `::` run, hextets of at most 4 hex digits, an optional embedded
  IPv4-in-IPv6 dotted tail), with an optional decimal prefix length of at
  most 128;
* with `strict=False` the host bits of the parsed address are cleared;
* when both parses fail, `ip_network` raises a single generic
  `ValueError` whose text is the one embedded in `notNetworkMsg`.

String repr quoting in that message is modelled for quote-free strings
(the only ones arising in CIDR lists).  Whitespace classification uses
`Char.isWhitespace`, which covers the ASCII whitespace that occurs in the
relevant text formats.
-/

namespace IpBlockLists

/-! ### Python string primitives, modelled on character lists -/

/-- Split a character list at every character satisfying `p`, keeping empty
segments — the behaviour of Python's `str.split(sep)` for a one-character
separator (with `p` matching exactly that separator). -/
def splitBy (p : Char → Bool) : List Char → List (List Char)
  | [] => [[]]
  | c :: cs =>
    match splitBy p cs with
    | [] => [[]]
    | r :: rs => if p c then [] :: r :: rs else (c :: r) :: rs

/-- Python `str.partition(sep)` for `sep = '/'`, keeping only the data the
scripts use: the part before the first `/`, and (if a `/` occurs) the whole
remainder after it. -/
def splitSlashOnce : List Char → List Char × Option (List Char)
  | [] => ([], none)
  | c :: cs =>
    if c = '/' then ([], some cs)
    else
      let r := splitSlashOnce cs
      (c :: r.1, r.2)

/-- Drop leading characters satisfying `p` and trailing characters
satisfying `p` — Python's `str.strip()` with `p` the whitespace test. -/
def trimChars (l : List Char) : List Char :=
  ((l.dropWhile Char.isWhitespace).reverse.dropWhile Char.isWhitespace).reverse

/-- Python `str.strip()`. -/
def pyStrip (s : String) : String := ⟨trimChars s.data⟩

/-- Python `str.startswith(c)` for a one-character argument `c`. -/
def pyStartsWith (c : Char) (s : String) : Bool :=
  match s.data with
  | [] => false
  | a :: _ => a = c

/-- Python `str.startswith(pre)` for a general string argument. -/
def listStartsWith : List Char → List Char → Bool
  | [], _ => true
  | _ :: _, [] => false
  | p :: ps, c :: cs => p = c && listStartsWith ps cs

/-- Python `str.split(sep)` for a one-character separator, producing
strings. -/
def pySplitChar (sep : Char) (s : String) : List String :=
  (splitBy (fun c => c = sep) s.data).map (fun l => ⟨l⟩)

/-- Python `str.split()` (no separator): split on whitespace runs and drop
the empty segments. -/
def pySplitWs (s : String) : List String :=
  ((splitBy Char.isWhitespace s.data).filter (fun l => !l.isEmpty)).map (fun l => ⟨l⟩)

/-! ### The `ipaddress.ip_network` model -/

/-- Decimal value of a digit list (the digits have been checked before this
is applied, as in CPython's `int(s)` call sites below). -/
def digitsVal (l : List Char) : Nat :=
  l.foldl (fun a c => a * 10 + (c.toNat - 48)) 0

/-- CPython `ipaddress._parse_octet`: a non-empty, all-decimal-digit string
of at most 3 characters, without a leading zero (unless it is exactly
`"0"`), valued at most 255. -/
def parseOctet (g : List Char) : Option Nat :=
  match g with
  | [] => none
  | c :: cs =>
    if !(g.all Char.isDigit) then none
    else if 3 < g.length then none
    else if c = '0' && !cs.isEmpty then none
    else
      let v := digitsVal g
      if 255 < v then none else some v

/-- CPython `IPv4Address._ip_int_from_string`: exactly four dot-separated
octets. -/
def parseIPv4Addr (l : List Char) : Option Nat :=
  match splitBy (fun c => c = '.') l with
  | [a, b, c, d] =>
    match parseOctet a, parseOctet b, parseOctet c, parseOctet d with
    | some x, some y, some z, some w => some (((x * 256 + y) * 256 + z) * 256 + w)
    | _, _, _, _ => none
  | _ => none

/-- CPython `_prefix_from_prefix_string` (shared by v4 and v6): a non-empty
all-digit string whose value is at most `maxLen`. -/
def parsePrefixLen (maxLen : Nat) (g : List Char) : Option Nat :=
  match g with
  | [] => none
  | _ :: _ =>
    if g.all Char.isDigit then
      let v := digitsVal g
      if v ≤ maxLen then some v else none
    else none

/-- CPython `_count_righthand_zero_bits number bits`: the number of
consecutive zero bits at the least significant end, capped at `bits`. -/
def countRightZeroBits (n bits : Nat) : Nat :=
  ((List.range bits).takeWhile (fun k => n / 2 ^ k % 2 = 0)).length

/-- CPython `_prefix_from_ip_int` for IPv4: interpret a 32-bit integer as a
netmask consisting of `p` leading one bits followed by zero bits. -/
def plenFromIpInt (ip : Nat) : Option Nat :=
  let tz := countRightZeroBits ip 32
  let p := 32 - tz
  if ip / 2 ^ tz = 2 ^ p - 1 then some p else none

/-- CPython `IPv4Network._make_netmask` for a string argument: first try a
decimal prefix length, then a dotted-quad netmask, then a dotted-quad
hostmask. -/
def v4MaskToPlen (g : List Char) : Option Nat :=
  match parsePrefixLen 32 g with
  | some p => some p
  | none =>
    match parseIPv4Addr g with
    | none => none
    | some ip =>
      match plenFromIpInt ip with
      | some p => some p
      | none => plenFromIpInt (ip ^^^ 0xFFFFFFFF)

/-- Clear the host bits of `a` under a prefix of length `p` out of `w` bits
(`strict=False` network construction). -/
def maskBits (w a p : Nat) : Nat :=
  a / 2 ^ (w - p) * 2 ^ (w - p)

/-- CPython `IPv4Network(s, strict=False)` reduced to the data the scripts
observe: the masked network address and the prefix length. -/
def parseIPv4Network (l : List Char) : Option (Nat × Nat) :=
  let s := splitSlashOnce l
  match parseIPv4Addr s.1 with
  | none => none
  | some a =>
    match s.2 with
    | none => some (a, 32)
    | some m =>
      match v4MaskToPlen m with
      | none => none
      | some p => some (maskBits 32 a p, p)

/-- CPython `_parse_hextet`: at most 4 hex digits, non-empty (an empty
hextet makes `int(s, 16)` raise). -/
def parseHextet (g : List Char) : Option Nat :=
  match g with
  | [] => none
  | _ :: _ =>
    if !(g.all fun c => c.isDigit || ('a' ≤ c && c ≤ 'f') || ('A' ≤ c && c ≤ 'F')) then none
    else if 4 < g.length then none
    else some (g.foldl (fun a c =>
      a * 16 + (if c.isDigit then c.toNat - 48
                else if 'a' ≤ c then c.toNat - 87 else c.toNat - 55)) 0)

/-- Fold hextets into an accumulator, 16 bits at a time (the `ip_int`
accumulation loop of `_ip_int_from_string`). -/
def hexFoldParts (acc : Nat) : List (List Char) → Option Nat
  | [] => some acc
  | g :: gs =>
    match parseHextet g with
    | none => none
    | some h => hexFoldParts (acc * 65536 + h) gs

/-- CPython IPv6 `_ip_int_from_string`, IPv4-in-IPv6 step: when the last
colon-separated part contains a dot, parse it as an IPv4 address and
replace it with its two 16-bit halves written in hex. -/
def ipv4TailFix (parts : List (List Char)) : Option (List (List Char)) :=
  match parts.getLast? with
  | none => some parts
  | some last =>
    if '.' ∈ last then
      match parseIPv4Addr last with
      | none => none
      | some v =>
        some (parts.dropLast ++ [Nat.toDigits 16 (v / 65536), Nat.toDigits 16 (v % 65536)])
    else some parts

/-- CPython IPv6 `_ip_int_from_string`: split on `:`, require at least 3
parts, resolve an IPv4 tail, locate at most one empty middle part
(the `::` run), check the leading/trailing-colon side conditions, and fold
the hextets with the skipped zero groups in between. -/
def parseIPv6Addr (l : List Char) : Option Nat :=
  let parts0 := splitBy (fun c => c = ':') l
  if parts0.length < 3 then none
  else
    match ipv4TailFix parts0 with
    | none => none
    | some parts =>
      if 9 < parts.length then none
      else
        let n := parts.length
        let mid := (parts.drop 1).take (n - 2)
        let emptyCount := mid.countP (fun g => g.isEmpty)
        match parts.head?, parts.getLast? with
        | some p0, some pl =>
          if 1 < emptyCount then none
          else if emptyCount = 1 then
            let skip := 1 + mid.findIdx (fun g => g.isEmpty)
            if p0.isEmpty && !(skip = 1) then none
            else if pl.isEmpty && !(n - skip - 1 = 1) then none
            else
              let hi := if p0.isEmpty then skip - 1 else skip
              let lo := if pl.isEmpty then n - skip - 2 else n - skip - 1
              if 8 - (hi + lo) < 1 then none
              else
                match hexFoldParts 0 (parts.take hi) with
                | none => none
                | some accHi =>
                  match hexFoldParts (accHi * 65536 ^ (8 - (hi + lo))) (parts.drop (n - lo)) with
                  | none => none
                  | some v => some v
          else
            if n ≠ 8 then none
            else if p0.isEmpty || pl.isEmpty then none
            else hexFoldParts 0 parts
        | _, _ => none

/-- CPython `IPv6Network(s, strict=False)` reduced to the masked network
address and the prefix length (IPv6 accepts only decimal prefix lengths,
not netmask strings). -/
def parseIPv6Network (l : List Char) : Option (Nat × Nat) :=
  let s := splitSlashOnce l
  match parseIPv6Addr s.1 with
  | none => none
  | some a =>
    match s.2 with
    | none => some (a, 128)
    | some m =>
      match parsePrefixLen 128 m with
      | none => none
      | some p => some (maskBits 128 a p, p)

/-- An IP network value as returned by `ipaddress.ip_network`: the version
tag, the (host-bit-cleared) network address and the prefix length. -/
inductive IPNet where
  | v4 (addr : Nat) (plen : Nat)
  | v6 (addr : Nat) (plen : Nat)
deriving DecidableEq, Repr

/-- The `network.version` attribute. -/
def IPNet.version : IPNet → Nat
  | .v4 _ _ => 4
  | .v6 _ _ => 6

/-- The single-quote character, used by Python `repr` on quote-free
strings. -/
def sq : Char := Char.ofNat 39

/-- Python `repr` of a string containing no quotes or escapes — the only
strings that reach the error message below. -/
def pyRepr (s : String) : String := ⟨sq :: (s.data ++ [sq])⟩

/-- The `ValueError` text raised by `ipaddress.ip_network` when a string is
neither an IPv4 nor an IPv6 network. -/
def notNetworkMsg (s : String) : String :=
  pyRepr s ++ " does not appear to be an IPv4 or IPv6 network"

/-- CPython `ipaddress.ip_network(s, strict=False)`: try IPv4, then IPv6,
else the generic `ValueError` (all per-version parse errors are swallowed
and replaced by the one generic message). -/
def ip_network (s : String) : Except String IPNet :=
  match parseIPv4Network s.data with
  | some (a, p) => .ok (.v4 a p)
  | none =>
    match parseIPv6Network s.data with
    | some (a, p) => .ok (.v6 a p)
    | none => .error (notNetworkMsg s)

/-- Dotted-quad rendering of a 32-bit address value, as in
`str(IPv4Address)`. -/
def v4String (a : Nat) : String :=
  toString (a / 16777216 % 256) ++ "." ++ toString (a / 65536 % 256) ++ "." ++
    toString (a / 256 % 256) ++ "." ++ toString (a % 256)

/-- `str(network)` for the networks produced by `ip_network`.  Only the
IPv4 case is ever rendered by the scripts (the validator rejects IPv6
before normalising); the IPv6 case is rendered uncompressed. -/
def IPNet.render : IPNet → String
  | .v4 a p => v4String a ++ "/" ++ toString p
  | .v6 a p =>
    String.intercalate (":") ((List.range 8).map fun i =>
      ⟨Nat.toDigits 16 (a / 65536 ^ (7 - i) % 65536)⟩) ++ "/" ++ toString p

/-! ### `scripts/validate.py` -/

/-- The Python guard `not line or line.startswith('#')` used by both
scripts to skip blank lines and comments (a stripped line is falsy exactly
when it is empty). -/
def isSkipLine (s : String) : Bool :=
  s = "" || pyStartsWith '#' s

/-- `validate_cidr` of `scripts/validate.py`: strip the line; blank lines
and comments are valid; otherwise parse with
`ipaddress.ip_network(line, strict=False)`, rejecting IPv6 with a distinct
message and passing any parse error text through verbatim. -/
def validate_cidr (line : String) : Bool × Option String :=
  let line := pyStrip line
  if isSkipLine line then (true, none)
  else
    match ip_network line with
    | .ok network =>
      if network.version ≠ 4 then (false, some ("IPv6 not supported: " ++ line))
      else (true, none)
    | .error e => (false, some e)

/-- One recorded invalid-entry diagnostic of `validate_file`: line number,
stripped content, and the error message. -/
structure ErrorEntry where
  line : Nat
  content : String
  error : Option String
deriving DecidableEq, Repr

/-- The mutable `results` dictionary of `validate_file`.  The
`duplicate_entries` field is a Python `set`, modelled as a list without
duplicates (insertion keeps the set property); `validate_file` sorts it
before returning. -/
structure ValidationResults where
  total_lines : Nat
  valid_cidrs : Nat
  invalid_cidrs : Nat
  duplicates : Nat
  errors : List ErrorEntry
  duplicate_entries : List String
deriving DecidableEq, Repr

/-- Python `set.add`: insert if not already present. -/
def setAdd (x : String) (s : List String) : List String :=
  if x ∈ s then s else s ++ [x]

/-- The loop body of `validate_file` for one line of the file.  The state
carries the results record, the `seen_cidrs` set and the 1-based number of
the next line. -/
def validateStep (st : ValidationResults × List String × Nat) (line : String) :
    ValidationResults × List String × Nat :=
  let res := st.1
  let seen := st.2.1
  let lineNum := st.2.2
  let res := { res with total_lines := res.total_lines + 1 }
  let stripped := pyStrip line
  if isSkipLine stripped then (res, seen, lineNum + 1)
  else
    match validate_cidr stripped with
    | (false, error) =>
      ({ res with
          invalid_cidrs := res.invalid_cidrs + 1,
          errors := res.errors ++ [⟨lineNum, stripped, error⟩] }, seen, lineNum + 1)
    | (true, _) =>
      match ip_network stripped with
      | .ok network =>
        let normalized := network.render
        if normalized ∈ seen then
          ({ res with
              duplicates := res.duplicates + 1,
              duplicate_entries := setAdd normalized res.duplicate_entries },
            seen, lineNum + 1)
        else
          ({ res with valid_cidrs := res.valid_cidrs + 1 },
            seen ++ [normalized], lineNum + 1)
      | .error _ => (res, seen, lineNum + 1)

/-- `validate_file` of `scripts/validate.py`, on the list of lines of the
file (without their trailing newlines): fold the loop body over the lines
starting from the empty results record and the empty `seen_cidrs` set,
then replace `duplicate_entries` by its sorted form
(`sorted(results['duplicate_entries'])`). -/
def validate_file (lines : List String) : ValidationResults :=
  let res := (lines.foldl validateStep (⟨0, 0, 0, 0, [], []⟩, [], 1)).1
  { res with duplicate_entries := res.duplicate_entries.insertionSort (· ≤ ·) }

/-- The validation loop and exit of `main` in `scripts/validate.py`
(lines 145–170), on the contents of the resolved files: `total_errors`
accumulates each file's `invalid_cidrs`, and the process exits 1 exactly
when it is positive.  (Sorting the file paths before the loop permutes the
files but cannot change the total, so the model takes the file contents in
any fixed order.) -/
def validatorExit (files : List (List String)) : Nat :=
  let totalErrors := (files.map (fun f => (validate_file f).invalid_cidrs)).sum
  if totalErrors > 0 then 1 else 0

/-! ### `scripts/chunk.py` -/

/-- `read_cidrs` of `scripts/chunk.py`: keep the stripped form of every
line that is non-blank and not a comment. -/
def read_cidrs (lines : List String) : List String :=
  lines.filterMap (fun line =>
    let stripped := pyStrip line
    if stripped ≠ "" && !pyStartsWith '#' stripped then some stripped else none)

/-- Python `f"{n:03d}"`: decimal rendering zero-padded to at least three
characters. -/
def pad3 (n : Nat) : String :=
  let s := toString n
  if s.length ≥ 3 then s else ⟨List.replicate (3 - s.length) '0'⟩ ++ s

/-- The chunk with index `i` (0-based) of `chunk_file`'s loop:
`cidrs[i*chunk_size : min((i+1)*chunk_size, len(cidrs))]`. -/
def chunkSlice (cidrs : List String) (chunkSize i : Nat) : List String :=
  (cidrs.drop (i * chunkSize)).take chunkSize

/-- `chunk_file` of `scripts/chunk.py`, on the lines of the input file.
`stem` is `input_path.stem`; a `/`-joined path string stands for each
`output_dir / output_filename`.  The result is the returned
`output_files` list paired with the list of file writes performed
(`write_chunk` calls), each a path with the lines written to it; with
`dry_run` set, no writes happen but the same paths are returned. -/
def chunk_file (inputLines : List String) (stem outputDir : String)
    (chunkSize : Nat) (pfx : Option String) (dryRun : Bool) :
    List String × List (String × List String) :=
  let cidrs := read_cidrs inputLines
  if cidrs.isEmpty then ([], [])
  else
    let pr := pfx.getD stem
    let numChunks := (cidrs.length + chunkSize - 1) / chunkSize
    let entries := (List.range numChunks).map (fun i =>
      (outputDir ++ "/" ++ pr ++ "-part-" ++ pad3 (i + 1) ++ ".txt",
        chunkSlice cidrs chunkSize i))
    (entries.map Prod.fst, if dryRun then [] else entries)

/-! ### `scripts/fetch.py` -/

/-- A provider entry of the `PROVIDERS` table: source URL, parser key and
canonical output path. -/
structure ProviderConfig where
  url : String
  parserTag : String
  output : String
deriving DecidableEq, Repr

/-- The `PROVIDERS` configuration table of `scripts/fetch.py`, in its
definition order. -/
def PROVIDERS : List (String × ProviderConfig) :=
  [("aws", ⟨"https://ip-ranges.amazonaws.com/ip-ranges.json", "aws_json",
      "lists/providers/aws.txt"⟩),
   ("digitalocean", ⟨"https://www.digitalocean.com/geo/google.csv", "digitalocean_csv",
      "lists/providers/digitalocean.txt"⟩),
   ("linode", ⟨"https://geoip.linode.com/", "linode_text",
      "lists/providers/linode.txt"⟩),
   ("ovh", ⟨"https://www.ovh.com/manager/dedicated/allowerlist.json", "ovh_json",
      "lists/providers/ovh.txt"⟩),
   ("tor", ⟨"https://check.torproject.org/exit-addresses", "tor_exit",
      "lists/providers/tor-exit-nodes.txt"⟩),
   ("vultr", ⟨"https://www.vultr.com/resources/faq/#downloadableIPRanges", "vultr_html",
      "lists/providers/vultr.txt"⟩)]

/-- The `name in PROVIDERS` dictionary lookup. -/
def lookupProvider (name : String) : Option ProviderConfig :=
  (PROVIDERS.find? (fun p => p.1 = name)).map (fun p => p.2)

/-- What the `try` block of `fetch_provider` yields for one provider in one
invocation: `fetch_url` raising (`URLError`), the parser raising
(`JSONDecodeError` or any other exception), or the parser returning its
CIDR list.  The HTTP transfer and the JSON parsers are external effects;
this is their observable outcome at the `fetch_provider` boundary. -/
inductive FetchOutcome where
  | transportError (msg : String)
  | parseError (msg : String)
  | parsed (cidrs : List String)
deriving DecidableEq, Repr

/-- `sorted(set(cidrs))` in `fetch_provider`: remove duplicates, then sort
lexicographically. -/
def sortedDedup (cidrs : List String) : List String :=
  cidrs.dedup.insertionSort (· ≤ ·)

/-- `fetch_provider` of `scripts/fetch.py`: unknown providers fail; a
transport or parse exception is caught and fails; an empty parsed list
fails before any write; otherwise the deduplicated, sorted list is written
to the provider's canonical output file (unless `dry_run`) and the call
succeeds with the written count.  The result is the returned
`(success, cidr_count)` pair together with the file writes performed. -/
def fetch_provider (name : String) (outcome : FetchOutcome) (dryRun : Bool) :
    (Bool × Nat) × List (String × List String) :=
  match lookupProvider name with
  | none => ((false, 0), [])
  | some config =>
    match outcome with
    | .transportError _ => ((false, 0), [])
    | .parseError _ => ((false, 0), [])
    | .parsed cidrs =>
      if cidrs.isEmpty then ((false, 0), [])
      else
        let out := sortedDedup cidrs
        ((true, out.length), if dryRun then [] else [(config.output, out)])

/-- The aggregate state and outcome of `main` in `scripts/fetch.py`:
the providers attempted in order, `success_count`, `total_cidrs`, all file
writes performed, and the process exit code. -/
structure FetchBatch where
  attempts : List String
  successCount : Nat
  totalCidrs : Nat
  writes : List (String × List String)
  exitCode : Nat
deriving DecidableEq, Repr

/-- The `providers_to_fetch` resolution of `main` in `scripts/fetch.py`:
the literal `all` expands to every configured provider in table order. -/
def requestedProviders (providersArg : List String) : List String :=
  if ("all") ∈ providersArg then PROVIDERS.map (fun p => p.1) else providersArg

/-- One iteration of the provider loop of `main`: call `fetch_provider`
for the name, record the attempt, and accumulate `success_count`,
`total_cidrs` and the writes performed. -/
def fetchMainStep (behavior : String → FetchOutcome) (dryRun : Bool)
    (st : List String × Nat × Nat × List (String × List String)) (name : String) :
    List String × Nat × Nat × List (String × List String) :=
  let r := fetch_provider name (behavior name) dryRun
  (st.1 ++ [name],
    st.2.1 + (if r.1.1 then 1 else 0),
    st.2.2.1 + (if r.1.1 then r.1.2 else 0),
    st.2.2.2 ++ r.2)

/-- The provider loop of `main` in `scripts/fetch.py`: resolve `all`,
call `fetch_provider` once per requested name in order, accumulate the
success count and the total CIDR count, and exit 0 exactly when every
requested provider succeeded.  `behavior` gives each provider's
`FetchOutcome` for this invocation. -/
def fetchMain (providersArg : List String) (behavior : String → FetchOutcome)
    (dryRun : Bool) : FetchBatch :=
  let toFetch := requestedProviders providersArg
  let st := toFetch.foldl (fetchMainStep behavior dryRun) ([], 0, 0, [])
  ⟨st.1, st.2.1, st.2.2.1, st.2.2.2, if st.2.1 = toFetch.length then 0 else 1⟩

/-- The loop body of `parse_tor_exit`: a line starting with
`"ExitAddress "` whose whitespace split has a second token `ip`
contributes `ip + "/32"`; every other line contributes nothing. -/
def torLineToCidr (line : String) : Option String :=
  if listStartsWith ("ExitAddress ").data line.data then
    match (pySplitWs line)[1]? with
    | some ip => some (ip ++ ("/32"))
    | none => none
  else none

/-- `parse_tor_exit` of `scripts/fetch.py`: apply the loop body to every
`\n`-separated line of the response body. -/
def parse_tor_exit (content : String) : List String :=
  (pySplitChar '\n' content).filterMap torLineToCidr

/-- The loop body of `parse_linode_text`: strip the line, skip blanks and
comments, take the first comma-separated field, and keep it only when it
parses as an IPv4 network. -/
def linodeLineToCidr (line : String) : Option String :=
  let line := pyStrip line
  if isSkipLine line then none
  else
    match (pySplitChar ',' line).head? with
    | none => none
    | some c0 =>
      let cidr := pyStrip c0
      match ip_network cidr with
      | .ok network => if network.version = 4 then some cidr else none
      | .error _ => none

/-- `parse_linode_text` of `scripts/fetch.py`: strip the body, split into
lines, and apply the loop body to each. -/
def parse_linode_text (content : String) : List String :=
  (pySplitChar '\n' (pyStrip content)).filterMap linodeLineToCidr

/-- The per-match validation filter of `parse_vultr_html`, applied to the
candidate strings produced by the regular-expression scan of the page
(the scan itself is the external text source here): keep a match only when
`ipaddress.ip_network(match, strict=False)` succeeds, then drop duplicates
via `list(set(...))` (modelled up to set ordering by `dedup`). -/
def parse_vultr_html (regexMatches : List String) : List String :=
  (regexMatches.filterMap (fun m =>
    match ip_network m with
    | .ok _ => some m
    | .error _ => none)).dedup

/-! ### Claim statements

The multi-part claims are packaged as named propositions so that their
theorems and concrete instantiations share one statement. -/

/-- Behaviour of the `validate_file` loop body on a line that carries a
valid IPv4 network `net`: a repeated normalised value increments only the
duplicate count and records the value in the duplicate set, a fresh one
increments only the valid count and extends `seen_cidrs`. -/
def DupStepSpec (st : ValidationResults × List String × Nat) (line : String)
    (net : IPNet) : Prop :=
  (net.render ∈ st.2.1 →
    (validateStep st line).1.duplicates = st.1.duplicates + 1 ∧
    (validateStep st line).1.valid_cidrs = st.1.valid_cidrs ∧
    (validateStep st line).1.duplicate_entries =
      setAdd net.render st.1.duplicate_entries ∧
    (validateStep st line).2.1 = st.2.1) ∧
  (net.render ∉ st.2.1 →
    (validateStep st line).1.valid_cidrs = st.1.valid_cidrs + 1 ∧
    (validateStep st line).1.duplicates = st.1.duplicates ∧
    (validateStep st line).2.1 = st.2.1 ++ [net.render])

/-- The chunk-partition contract of `chunk_file` for a non-empty entry
list and a positive chunk size: the number of chunks is the rounded-up
quotient, every chunk is a consecutive slice of at most `chunkSize`
entries, concatenating the written chunks in order restores the entry
list, and the output paths carry the three-digit one-based part names. -/
def ChunkSpec (inputLines : List String) (stem outputDir : String)
    (chunkSize : Nat) (pfx : Option String) : Prop :=
  let cidrs := read_cidrs inputLines
  let k := (cidrs.length + chunkSize - 1) / chunkSize
  (∀ dryRun, (chunk_file inputLines stem outputDir chunkSize pfx dryRun).1 =
    (List.range k).map (fun i =>
      outputDir ++ "/" ++ pfx.getD stem ++ "-part-" ++ pad3 (i + 1) ++ ".txt")) ∧
  chunkSize * (k - 1) < cidrs.length ∧ cidrs.length ≤ chunkSize * k ∧
  (chunk_file inputLines stem outputDir chunkSize pfx false).2 =
    ((chunk_file inputLines stem outputDir chunkSize pfx false).1).zip
      ((List.range k).map (chunkSlice cidrs chunkSize)) ∧
  (∀ i, (chunkSlice cidrs chunkSize i).length ≤ chunkSize) ∧
  ((List.range k).map (chunkSlice cidrs chunkSize)).flatten = cidrs

/-- The persistence normal form of a successful fetch: the write target is
the provider's canonical output file, the written lines are the
deduplicated, lexicographically sorted parse result, and the returned
count is their number. -/
def FetchPersistSpec (name : String) (config : ProviderConfig)
    (cidrs : List String) : Prop :=
  fetch_provider name (.parsed cidrs) false =
    ((true, (sortedDedup cidrs).length), [(config.output, sortedDedup cidrs)]) ∧
  (sortedDedup cidrs).Sorted (· ≤ ·) ∧
  (sortedDedup cidrs).Nodup ∧
  (∀ s, s ∈ sortedDedup cidrs ↔ s ∈ cidrs)

/-! ### Lemmas about the string primitives -/

theorem splitBy_ne_nil (p : Char → Bool) (l : List Char) : splitBy p l ≠ [] := by
  cases l with
  | nil => simp [splitBy]
  | cons c cs =>
    simp only [splitBy]
    cases h : splitBy p cs with
    | nil => simp
    | cons r rs =>
      by_cases hc : p c <;> simp [hc]

theorem splitBy_cons_of_not (p : Char → Bool) (c : Char) (hc : p c = false)
    (l : List Char) : ∃ r rs, splitBy p (c :: l) = (c :: r) :: rs := by
  simp only [splitBy]
  cases h : splitBy p l with
  | nil => exact absurd h (splitBy_ne_nil p l)
  | cons r rs => exact ⟨r, rs, by simp [hc]⟩

theorem dropWhile_dropWhile (p : Char → Bool) (l : List Char) :
    (l.dropWhile p).dropWhile p = l.dropWhile p := by
  induction l with
  | nil => rfl
  | cons a t ih =>
    by_cases h : p a
    · simp [List.dropWhile_cons, h, ih]
    · simp [List.dropWhile_cons, h]

theorem dropWhile_append_last (p : Char → Bool) (a : Char) (ha : p a = false)
    (l : List Char) : (l ++ [a]).dropWhile p = l.dropWhile p ++ [a] := by
  induction l with
  | nil => simp [List.dropWhile_cons, ha]
  | cons b t ih =>
    by_cases h : p b
    · simp [List.dropWhile_cons, h, ih]
    · simp [List.dropWhile_cons, h]

theorem dropWhile_head_false (p : Char → Bool) (a : Char) (t : List Char)
    (h : (a :: t).dropWhile p = a :: t) : p a = false := by
  by_cases hp : p a
  · exfalso
    rw [List.dropWhile_cons, if_pos hp] at h
    have := (List.dropWhile_sublist (l := t) p).length_le
    rw [h] at this
    simp at this
  · exact eq_false_of_ne_true hp

theorem trimChars_idem (l : List Char) : trimChars (trimChars l) = trimChars l := by
  set p := Char.isWhitespace with hp
  set A := l.dropWhile p with hA
  have hAfix : A.dropWhile p = A := dropWhile_dropWhile p l
  set B := A.reverse.dropWhile p with hB
  have hBfix : B.dropWhile p = B := by rw [hB]; exact dropWhile_dropWhile p A.reverse
  have hTrim : trimChars l = B.reverse := by simp [trimChars, ← hA, ← hB]
  obtain ⟨d, hd⟩ : B <:+ A.reverse := hB ▸ List.dropWhile_suffix p
  have hAexp : A = B.reverse ++ d.reverse := by
    have : (d ++ B).reverse = A.reverse.reverse := by rw [hd]
    simpa using this.symm
  have h1 : B.reverse.dropWhile p = B.reverse := by
    cases hRc : B.reverse with
    | nil => rfl
    | cons r R =>
      have hAr : A = r :: (R ++ d.reverse) := by rw [hAexp, hRc]; rfl
      have hpr : p r = false := dropWhile_head_false p r _ (by rw [← hAr]; exact hAfix)
      simp [List.dropWhile_cons, hpr]
  rw [hTrim]
  show trimChars B.reverse = B.reverse
  rw [trimChars]
  rw [hp] at h1 hBfix
  rw [h1, List.reverse_reverse, hBfix]

theorem pyStrip_idem (s : String) : pyStrip (pyStrip s) = pyStrip s := by
  simp [pyStrip, trimChars_idem]

/-! ### A comment line is not a network

`validate_cidr` returns early on `#`-prefixed lines, so for the claims
about `ip_network` results we need that no string starting with `#` parses
as a network of either version. -/

theorem splitSlashOnce_cons_ne (c : Char) (hc : ¬ c = '/') (r : List Char) :
    splitSlashOnce (c :: r) = (c :: (splitSlashOnce r).1, (splitSlashOnce r).2) := by
  simp [splitSlashOnce, hc]

theorem parseOctet_hash (q : List Char) : parseOctet ('#' :: q) = none := by
  have hd : ('#').isDigit = false := by decide
  simp [parseOctet, List.all_cons, hd]

theorem parseHextet_hash (q : List Char) : parseHextet ('#' :: q) = none := by
  have hd : (('#').isDigit || ('a' ≤ '#' && '#' ≤ 'f') || ('A' ≤ '#' && '#' ≤ 'F')) = false := by
    decide
  simp [parseHextet, List.all_cons, hd]

theorem parseIPv4Addr_hash (r : List Char) : parseIPv4Addr ('#' :: r) = none := by
  obtain ⟨q, qs, hsp⟩ := splitBy_cons_of_not (fun c => c = '.') '#' (by decide) r
  simp only [parseIPv4Addr, hsp]
  rcases qs with _ | ⟨b, _ | ⟨c, _ | ⟨d, _ | ⟨e, es⟩⟩⟩⟩ <;> simp [parseOctet_hash]

theorem hexFoldParts_hash (acc : Nat) (q : List Char) (gs : List (List Char)) :
    hexFoldParts acc (('#' :: q) :: gs) = none := by
  simp [hexFoldParts, parseHextet_hash]

theorem ipv4TailFix_head (x b : List Char) (qs : List (List Char))
    (parts : List (List Char)) (h : ipv4TailFix (x :: b :: qs) = some parts) :
    ∃ t, parts = x :: t := by
  rw [ipv4TailFix] at h
  split at h
  · simp only [Option.some.injEq] at h
    exact ⟨_, h.symm⟩
  · split at h
    · split at h
      · exact absurd h (by simp)
      · rename_i ip heq
        simp only [Option.some.injEq] at h
        refine ⟨(b :: qs).dropLast ++
          [Nat.toDigits 16 (ip / 65536), Nat.toDigits 16 (ip % 65536)], ?_⟩
        rw [← h]
        simp
    · simp only [Option.some.injEq] at h
      exact ⟨_, h.symm⟩

theorem parseIPv6Addr_hash (r : List Char) : parseIPv6Addr ('#' :: r) = none := by
  obtain ⟨q, qs, hsp⟩ := splitBy_cons_of_not (fun c => c = ':') '#' (by decide) r
  rw [parseIPv6Addr, hsp]
  split
  · rfl
  · next hlen =>
    obtain ⟨b, c, rs, rfl⟩ : ∃ b c t, qs = b :: c :: t := by
      rcases qs with _ | ⟨b, _ | ⟨c, t⟩⟩
      · simp at hlen
      · simp at hlen
      · exact ⟨b, c, t, rfl⟩
    cases hfix : ipv4TailFix (('#' :: q) :: b :: c :: rs) with
    | none => simp
    | some parts =>
      simp only [hfix]
      obtain ⟨t, rfl⟩ := ipv4TailFix_head _ _ _ _ hfix
      split
      · rfl
      · cases hgl : (('#' :: q) :: t).getLast? with
        | none => simp [List.getLast?_eq_none_iff] at hgl
        | some pl =>
          have hfoldAll : ∀ k, hexFoldParts 0 (List.take (1 + k) (('#' :: q) :: t)) = none := by
            intro k
            rw [Nat.add_comm, List.take_succ_cons]
            exact hexFoldParts_hash _ _ _
          have hfold2 : hexFoldParts 0 (('#' :: q) :: t) = none := hexFoldParts_hash _ _ _
          simp [hgl, hfoldAll, hfold2]

theorem ip_network_hash (s : String) (h : pyStartsWith '#' s = true) :
    ip_network s = .error (notNetworkMsg s) := by
  obtain ⟨r, hr⟩ : ∃ r, s.data = '#' :: r := by
    unfold pyStartsWith at h
    cases hd : s.data with
    | nil => rw [hd] at h; simp at h
    | cons a t =>
      rw [hd] at h
      simp only [decide_eq_true_eq] at h
      exact ⟨t, by rw [h]⟩
  have h4 : parseIPv4Network s.data = none := by
    rw [hr, parseIPv4Network, splitSlashOnce_cons_ne '#' (by decide) r]
    simp [parseIPv4Addr_hash]
  have h6 : parseIPv6Network s.data = none := by
    rw [hr, parseIPv6Network, splitSlashOnce_cons_ne '#' (by decide) r]
    simp [parseIPv6Addr_hash]
  rw [ip_network, h4, h6]

theorem ip_network_empty : ip_network ("") = .error (notNetworkMsg ("")) := by rfl

/-! ### Lemmas about `validate_cidr` and the `validate_file` loop body -/

theorem ip_network_ok_not_skip (t : String) (net : IPNet)
    (h : ip_network t = .ok net) : isSkipLine t = false := by
  by_contra hc
  have hc2 : isSkipLine t = true := by
    cases ht : isSkipLine t
    · exact absurd ht hc
    · rfl
  rw [isSkipLine, Bool.or_eq_true, decide_eq_true_eq] at hc2
  rcases hc2 with h1 | h2
  · rw [h1, ip_network_empty] at h
    cases h
  · rw [ip_network_hash t h2] at h
    cases h

theorem validate_cidr_skip (s : String) (h : isSkipLine (pyStrip s) = true) :
    validate_cidr s = (true, none) := by
  rw [validate_cidr]
  simp only [h, if_true]

theorem validate_cidr_of_v4 (s : String) (a p : Nat)
    (h : ip_network (pyStrip s) = .ok (.v4 a p)) : validate_cidr s = (true, none) := by
  rw [validate_cidr]
  by_cases hskip : isSkipLine (pyStrip s) = true
  · simp only [hskip, if_true]
  · simp only [Bool.not_eq_true] at hskip
    simp only [hskip, Bool.false_eq_true, if_false, h, IPNet.version]
    norm_num

theorem validate_cidr_of_v6 (s : String) (a p : Nat)
    (h : ip_network (pyStrip s) = .ok (.v6 a p)) :
    validate_cidr s = (false, some (("IPv6 not supported: ") ++ pyStrip s)) := by
  have hskip := ip_network_ok_not_skip _ _ h
  rw [validate_cidr]
  simp only [hskip, Bool.false_eq_true, if_false, h, IPNet.version]
  norm_num

theorem validate_cidr_of_error (s : String) (e : String)
    (hskip : isSkipLine (pyStrip s) = false)
    (h : ip_network (pyStrip s) = .error e) : validate_cidr s = (false, some e) := by
  rw [validate_cidr]
  simp only [hskip, Bool.false_eq_true, if_false, h]

theorem validate_cidr_true_v4 (t : String) (hfix : pyStrip t = t)
    (hskip : isSkipLine t = false) (h : (validate_cidr t).1 = true) :
    ∃ a p, ip_network t = .ok (.v4 a p) ∧ validate_cidr t = (true, none) := by
  rw [validate_cidr, hfix] at h ⊢
  simp only [hskip, Bool.false_eq_true, if_false] at h ⊢
  cases hnet : ip_network t with
  | error e => rw [hnet] at h; simp at h
  | ok net =>
    cases net with
    | v4 a p => exact ⟨a, p, rfl, by norm_num [IPNet.version]⟩
    | v6 a p => rw [hnet] at h; norm_num [IPNet.version] at h

theorem validateStep_skip (st : ValidationResults × List String × Nat) (line : String)
    (h : isSkipLine (pyStrip line) = true) :
    validateStep st line =
      ({ st.1 with total_lines := st.1.total_lines + 1 }, st.2.1, st.2.2 + 1) := by
  rw [validateStep]
  simp only [h, if_true]

theorem validateStep_sum (st : ValidationResults × List String × Nat) (line : String) :
    (validateStep st line).1.valid_cidrs + (validateStep st line).1.invalid_cidrs +
      (validateStep st line).1.duplicates =
    st.1.valid_cidrs + st.1.invalid_cidrs + st.1.duplicates +
      (if isSkipLine (pyStrip line) then 0 else 1) := by
  by_cases hskip : isSkipLine (pyStrip line) = true
  · rw [validateStep_skip st line hskip]
    simp [hskip]
  · simp only [Bool.not_eq_true] at hskip
    rw [validateStep]
    simp only [hskip, Bool.false_eq_true, if_false]
    cases hv : validate_cidr (pyStrip line) with
    | mk b e =>
      cases b with
      | false => simp; omega
      | true =>
        obtain ⟨a, p, hok, -⟩ :=
          validate_cidr_true_v4 (pyStrip line) (pyStrip_idem line) hskip (by rw [hv])
        rw [hok]
        by_cases hm : (IPNet.v4 a p).render ∈ st.2.1
        · simp [hm]; omega
        · simp [hm]; omega

theorem foldl_validateStep_sum (ls : List String) :
    ∀ st : ValidationResults × List String × Nat,
      (ls.foldl validateStep st).1.valid_cidrs + (ls.foldl validateStep st).1.invalid_cidrs +
        (ls.foldl validateStep st).1.duplicates =
      st.1.valid_cidrs + st.1.invalid_cidrs + st.1.duplicates +
        ls.countP (fun l => !isSkipLine (pyStrip l)) := by
  induction ls with
  | nil => intro st; simp
  | cons a t ih =>
    intro st
    rw [List.foldl_cons, List.countP_cons, ih (validateStep st a), validateStep_sum]
    by_cases h : isSkipLine (pyStrip a) = true
    · simp [h]
    · simp only [Bool.not_eq_true] at h
      simp [h]
      omega

/-! ### Lemmas about `chunk_file` -/

theorem chunkSlice_length (cidrs : List String) (N i : Nat) :
    (chunkSlice cidrs N i).length ≤ N := by
  rw [chunkSlice, List.length_take]
  exact Nat.min_le_left _ _

theorem ceil_div_succ (len N : Nat) (hl : 1 ≤ len) (hN : 1 ≤ N) :
    (len + N - 1) / N = (len - 1) / N + 1 := by
  have h : len + N - 1 = (len - 1) + N := by omega
  rw [h, Nat.add_div_right _ hN]

theorem chunk_count_bounds (len N : Nat) (hl : 1 ≤ len) (hN : 1 ≤ N) :
    N * ((len + N - 1) / N - 1) < len ∧ len ≤ N * ((len + N - 1) / N) := by
  rw [ceil_div_succ len N hl hN, Nat.add_sub_cancel, Nat.mul_add, Nat.mul_one]
  have h1 := Nat.div_add_mod (len - 1) N
  have h2 : (len - 1) % N < N := Nat.mod_lt _ (by omega)
  omega

theorem chunkSlice_zero (l : List String) (N : Nat) :
    chunkSlice l N 0 = l.take N := by
  simp [chunkSlice]

theorem chunkSlice_succ (l : List String) (N i : Nat) :
    chunkSlice l N (i + 1) = chunkSlice (l.drop N) N i := by
  rw [chunkSlice, chunkSlice, List.drop_drop, Nat.succ_mul, Nat.add_comm (i * N) N]

theorem flatten_chunkSlices (N : Nat) (hN : 1 ≤ N) :
    ∀ (n : Nat) (l : List String), l.length ≤ n →
      ((List.range ((l.length + N - 1) / N)).map (chunkSlice l N)).flatten = l := by
  intro n
  induction n with
  | zero =>
    intro l hl
    have h0 : l = [] := List.length_eq_zero.mp (Nat.le_zero.mp hl)
    subst h0
    simp [Nat.div_eq_of_lt (by omega : N - 1 < N)]
  | succ n ih =>
    intro l hl
    rcases hc : l with _ | ⟨a, t⟩
    · simp [Nat.div_eq_of_lt (by omega : N - 1 < N)]
    · subst hc
      have hlen : 1 ≤ (a :: t).length := by simp
      have hk : ((a :: t).length + N - 1) / N =
          (((a :: t).drop N).length + N - 1) / N + 1 := by
        rw [ceil_div_succ _ N hlen hN]
        congr 1
        rw [List.length_drop]
        by_cases hle : (a :: t).length ≤ N
        · have h1 : (a :: t).length - N = 0 := by omega
          rw [h1, Nat.div_eq_of_lt (by omega), Nat.div_eq_of_lt (by omega)]
        · congr 1
          omega
      rw [hk, List.range_succ_eq_map]
      simp only [List.map_cons, List.flatten_cons, List.map_map]
      have hmap : ((List.range ((((a :: t).drop N).length + N - 1) / N)).map
          (chunkSlice (a :: t) N ∘ Nat.succ)) =
          (List.range ((((a :: t).drop N).length + N - 1) / N)).map
            (chunkSlice ((a :: t).drop N) N) := by
        apply List.map_congr_left
        intro i _
        exact chunkSlice_succ (a :: t) N i
      rw [hmap, ih ((a :: t).drop N) (by rw [List.length_drop]; simp at hl ⊢; omega),
        chunkSlice_zero, List.take_append_drop]

theorem read_cidrs_replicate (n : Nat) (s : String)
    (h : (pyStrip s ≠ "" && !pyStartsWith '#' (pyStrip s)) = true) :
    read_cidrs (List.replicate n s) = List.replicate n (pyStrip s) := by
  induction n with
  | zero => rfl
  | succ n ih =>
    rw [List.replicate_succ, List.replicate_succ, read_cidrs, List.filterMap_cons]
    rw [read_cidrs] at ih
    simp only [h, if_true]
    rw [ih]

theorem chunk_file_expand (inputLines : List String) (stem outputDir : String)
    (chunkSize : Nat) (pfx : Option String) (dryRun : Bool)
    (hne : read_cidrs inputLines ≠ []) :
    chunk_file inputLines stem outputDir chunkSize pfx dryRun =
      ((List.range (((read_cidrs inputLines).length + chunkSize - 1) / chunkSize)).map
          (fun i => outputDir ++ "/" ++ pfx.getD stem ++ "-part-" ++ pad3 (i + 1) ++ ".txt"),
        if dryRun then [] else
          (List.range (((read_cidrs inputLines).length + chunkSize - 1) / chunkSize)).map
            (fun i => (outputDir ++ "/" ++ pfx.getD stem ++ "-part-" ++ pad3 (i + 1) ++ ".txt",
              chunkSlice (read_cidrs inputLines) chunkSize i))) := by
  have hie : (read_cidrs inputLines).isEmpty = false := by
    cases hc : (read_cidrs inputLines).isEmpty
    · rfl
    · exact absurd (List.isEmpty_iff.mp hc) hne
  rw [chunk_file]
  simp only [hie, Bool.false_eq_true, if_false, List.map_map]
  rfl

/-! ### The claims -/

/-- Claim C1 — duplicate detection normalises before comparing: the
three-line example yields valid count 2, duplicate count 1 and duplicate
set exactly `{"10.0.0.0/24"}`; the reported duplicate-entries list of any
file is in sorted normalised-string order; and in the scan of a file, a
line whose normalised network was already seen increments only the
duplicate count while a fresh normalised value increments only the valid
count and joins the seen set. -/
theorem validator_duplicate_normalization :
    (validate_file [("10.0.0.0/24"), ("10.0.0.1/24"), ("10.0.1.0/24")] =
      ⟨3, 2, 0, 1, [], [("10.0.0.0/24")]⟩) ∧
    (∀ lines, List.Sorted (· ≤ ·) (validate_file lines).duplicate_entries) ∧
    (∀ st line net, isSkipLine (pyStrip line) = false →
      ip_network (pyStrip line) = .ok net → net.version = 4 →
      DupStepSpec st line net) := by
  refine ⟨by decide, fun lines => ?_, fun st line net hskip hok hver => ?_⟩
  · rw [validate_file]
    exact List.sorted_insertionSort _ _
  · cases net with
    | v6 a p => simp [IPNet.version] at hver
    | v4 a p =>
      have hvc : validate_cidr (pyStrip line) = (true, none) :=
        validate_cidr_of_v4 (pyStrip line) a p (by rw [pyStrip_idem]; exact hok)
      constructor
      · intro hm
        have hstep : validateStep st line =
            ({ st.1 with
                total_lines := st.1.total_lines + 1,
                duplicates := st.1.duplicates + 1,
                duplicate_entries :=
                  setAdd (IPNet.v4 a p).render st.1.duplicate_entries },
              st.2.1, st.2.2 + 1) := by
          rw [validateStep]
          simp only [hskip, Bool.false_eq_true, if_false, hvc, hok, hm, if_true]
        rw [hstep]
        exact ⟨rfl, rfl, rfl, rfl⟩
      · intro hm
        have hstep : validateStep st line =
            ({ st.1 with
                total_lines := st.1.total_lines + 1,
                valid_cidrs := st.1.valid_cidrs + 1 },
              st.2.1 ++ [(IPNet.v4 a p).render], st.2.2 + 1) := by
          rw [validateStep]
          simp only [hskip, Bool.false_eq_true, if_false, hvc, hok, hm, if_false]
        rw [hstep]
        exact ⟨rfl, rfl, rfl⟩

/-- Concrete instantiation of the step clause of
`validator_duplicate_normalization`: in the state reached after the
example's first line, the second line is counted as a duplicate of the
normalised value `10.0.0.0/24`. -/
theorem validator_duplicate_normalization_witness :
    DupStepSpec (⟨1, 1, 0, 0, [], []⟩, [("10.0.0.0/24")], 2) ("10.0.0.1/24")
      (.v4 167772160 24) :=
  validator_duplicate_normalization.2.2 _ _ _ (by decide) (by rfl) (by rfl)

/-- Claim C3 — validator exit contract: the validation loop's exit status
is non-zero exactly when some validated file contains an invalid entry;
files with only duplicates contribute no errors, so an all-duplicate input
set exits 0. -/
theorem validator_exit_contract : ∀ files : List (List String),
    (validatorExit files ≠ 0 ↔ ∃ f ∈ files, 0 < (validate_file f).invalid_cidrs) ∧
    ((∀ f ∈ files, (validate_file f).invalid_cidrs = 0) → validatorExit files = 0) := by
  intro files
  have hsum : ((files.map fun f => (validate_file f).invalid_cidrs).sum = 0) ↔
      ∀ f ∈ files, (validate_file f).invalid_cidrs = 0 := by
    rw [List.sum_eq_zero_iff]
    constructor
    · intro h f hf
      exact h _ (List.mem_map_of_mem _ hf)
    · intro h x hx
      obtain ⟨f, hf, rfl⟩ := List.mem_map.mp hx
      exact h f hf
  constructor
  · rw [validatorExit]
    by_cases h : (files.map fun f => (validate_file f).invalid_cidrs).sum > 0
    · rw [if_pos h]
      simp only [ne_eq, one_ne_zero, not_false_iff, true_iff]
      by_contra hno
      push_neg at hno
      have hall : ∀ f ∈ files, (validate_file f).invalid_cidrs = 0 := fun f hf =>
        Nat.le_zero.mp (hno f hf)
      rw [hsum.mpr hall] at h
      exact absurd h (lt_irrefl 0)
    · rw [if_neg h]
      simp only [ne_eq, not_true_eq_false, false_iff]
      rintro ⟨f, hf, hpos⟩
      have hall := hsum.mp (Nat.eq_zero_of_not_pos h)
      rw [hall f hf] at hpos
      exact absurd hpos (lt_irrefl 0)
  · intro hall
    rw [validatorExit, if_neg]
    rw [hsum.mpr hall]
    exact lt_irrefl 0

/-- Concrete instantiation of `validator_exit_contract`: a single file
consisting only of a duplicated entry exits 0. -/
theorem validator_exit_contract_witness :
    validatorExit [[("10.0.0.0/24"), ("10.0.0.0/24")]] = 0 :=
  (validator_exit_contract [[("10.0.0.0/24"), ("10.0.0.0/24")]]).2 (by decide)

/-- Claim C4 — per-line validation contract of `validate_cidr`: a string
whose stripped form parses as an IPv4 network is valid; one that parses as
an IPv6 network is rejected with the distinct IPv6 message; any other
non-blank, non-comment string is rejected with the parse error message
passed through verbatim. -/
theorem per_line_validation_contract : ∀ s : String,
    (∀ a p, ip_network (pyStrip s) = .ok (.v4 a p) → validate_cidr s = (true, none)) ∧
    (∀ a p, ip_network (pyStrip s) = .ok (.v6 a p) →
      validate_cidr s = (false, some (("IPv6 not supported: ") ++ pyStrip s))) ∧
    (∀ e, isSkipLine (pyStrip s) = false → ip_network (pyStrip s) = .error e →
      validate_cidr s = (false, some e)) :=
  fun s =>
    ⟨fun a p h => validate_cidr_of_v4 s a p h,
     fun a p h => validate_cidr_of_v6 s a p h,
     fun e hs h => validate_cidr_of_error s e hs h⟩

/-- Concrete instantiation of `per_line_validation_contract` on one string
of each class. -/
theorem per_line_validation_contract_witness :
    validate_cidr ("10.0.0.1/24") = (true, none) ∧
    validate_cidr ("::1/128") =
      (false, some (("IPv6 not supported: ") ++ pyStrip ("::1/128"))) ∧
    validate_cidr ("zzz") = (false, some (notNetworkMsg ("zzz"))) :=
  ⟨(per_line_validation_contract ("10.0.0.1/24")).1 167772160 24 (by rfl),
   (per_line_validation_contract ("::1/128")).2.1 1 128 (by rfl),
   (per_line_validation_contract ("zzz")).2.2 (notNetworkMsg ("zzz"))
     (by decide) (by rfl)⟩

/-- Claim C9 — validator count partition invariant: blank and comment
lines are valid, leave all three counters untouched and advance only the
line number, while every other line increments exactly one counter, so the
three counters sum to the number of non-blank, non-comment lines. -/
theorem validator_count_partition :
    (∀ lines, (validate_file lines).valid_cidrs + (validate_file lines).invalid_cidrs +
        (validate_file lines).duplicates =
      lines.countP (fun l => !isSkipLine (pyStrip l))) ∧
    (∀ line, isSkipLine (pyStrip line) = true →
      validate_cidr line = (true, none) ∧
      ∀ st, validateStep st line =
        ({ st.1 with total_lines := st.1.total_lines + 1 }, st.2.1, st.2.2 + 1)) := by
  constructor
  · intro lines
    rw [validate_file]
    simp only
    rw [foldl_validateStep_sum lines (⟨0, 0, 0, 0, [], []⟩, [], 1)]
    simp
  · intro line h
    exact ⟨validate_cidr_skip line h, fun st => validateStep_skip st line h⟩

/-- Concrete instantiation of `validator_count_partition`: a comment line
is valid and leaves the counters of the empty state unchanged. -/
theorem validator_count_partition_witness :
    validate_cidr ("# comment") = (true, none) ∧
    validateStep (⟨0, 0, 0, 0, [], []⟩, [], 1) ("# comment") =
      (⟨1, 0, 0, 0, [], []⟩, [], 2) := by
  have h := validator_count_partition.2 ("# comment") (by decide)
  exact ⟨h.1, h.2 _⟩

/-- Claim C2 — chunking partition correctness: for a non-empty entry list
and a positive chunk size the chunk structure satisfies `ChunkSpec`
(rounded-up chunk count, consecutive slices of at most the chunk size,
concatenation restoring the input, and the three-digit one-based part
names); in particular 4500 entries at size 2000 produce exactly the three
files `-part-001` to `-part-003` with sizes 2000, 2000 and 500. -/
theorem chunk_partition_correct :
    (∀ inputLines stem outputDir chunkSize pfx,
      read_cidrs inputLines ≠ [] → 1 ≤ chunkSize →
      ChunkSpec inputLines stem outputDir chunkSize pfx) ∧
    ((chunk_file (List.replicate 4500 ("10.0.0.0/24")) ("aws") ("chunks") 2000 none
        false).1 =
      [("chunks/aws-part-001.txt"), ("chunks/aws-part-002.txt"),
        ("chunks/aws-part-003.txt")]) ∧
    ((chunk_file (List.replicate 4500 ("10.0.0.0/24")) ("aws") ("chunks") 2000 none
        false).2.map (fun w => w.2.length) = [2000, 2000, 500]) := by
  have hgen : ∀ inputLines stem outputDir chunkSize pfx,
      read_cidrs inputLines ≠ [] → 1 ≤ chunkSize →
      ChunkSpec inputLines stem outputDir chunkSize pfx := by
    intro inputLines stem outputDir chunkSize pfx hne hN
    have hlen : 1 ≤ (read_cidrs inputLines).length := by
      cases hc : read_cidrs inputLines
      · exact absurd hc hne
      · simp [hc]
    refine ⟨fun dryRun => ?_, ?_, ?_, ?_, fun i => chunkSlice_length _ _ _, ?_⟩
    · rw [chunk_file_expand _ _ _ _ _ _ hne]
    · exact (chunk_count_bounds _ _ hlen hN).1
    · exact (chunk_count_bounds _ _ hlen hN).2
    · rw [chunk_file_expand _ _ _ _ _ _ hne]
      simp only [Bool.false_eq_true, if_false, List.map_map]
      rw [List.zip_map']
    · exact flatten_chunkSlices chunkSize hN (read_cidrs inputLines).length _ le_rfl
  have hs : pyStrip ("10.0.0.0/24") = ("10.0.0.0/24") := by decide
  have hread : read_cidrs (List.replicate 4500 ("10.0.0.0/24")) =
      List.replicate 4500 ("10.0.0.0/24") := by
    rw [read_cidrs_replicate 4500 _ (by decide), hs]
  have hne : read_cidrs (List.replicate 4500 ("10.0.0.0/24")) ≠ [] := by
    rw [hread]
    intro h
    have h2 := congrArg List.length h
    rw [List.length_replicate, List.length_nil] at h2
    exact absurd h2 (by norm_num)
  have hk : ((read_cidrs (List.replicate 4500 ("10.0.0.0/24"))).length + 2000 - 1) / 2000
      = 3 := by
    rw [hread, List.length_replicate]
  refine ⟨hgen, ?_, ?_⟩
  · rw [chunk_file_expand _ _ _ _ _ _ hne, hk]
    decide
  · rw [chunk_file_expand _ _ _ _ _ _ hne, hk]
    have hr3 : List.range 3 = [0, 1, 2] := by decide
    rw [hread, hr3]
    have hlen : ∀ i : Nat,
        (chunkSlice (List.replicate 4500 ("10.0.0.0/24")) 2000 i).length
          = min 2000 (4500 - i * 2000) := by
      intro i
      rw [chunkSlice, List.length_take, List.length_drop, List.length_replicate]
    simp only [Bool.false_eq_true, if_false, List.map_map, List.map_cons,
      List.map_nil, Function.comp_apply, hlen]
    norm_num

/-- Concrete instantiation of the general clause of
`chunk_partition_correct`: three entries at chunk size 2. -/
theorem chunk_partition_correct_witness :
    ChunkSpec [("10.0.0.0/24"), ("10.0.0.1/24"), ("10.0.0.2/24")] ("f") ("d") 2 none :=
  chunk_partition_correct.1 _ _ _ _ _ (by decide) (by decide)

/-- Claim C8 — chunker dry-run equivalence: for every input, `chunk_file`
returns the same output path list with `dry_run` set as without; the flag
suppresses only the writes. -/
theorem chunk_dry_run_equivalence : ∀ inputLines stem outputDir chunkSize pfx,
    (chunk_file inputLines stem outputDir chunkSize pfx true).1 =
    (chunk_file inputLines stem outputDir chunkSize pfx false).1 := by
  intro inputLines stem outputDir chunkSize pfx
  rw [chunk_file, chunk_file]
  by_cases h : (read_cidrs inputLines).isEmpty
  · simp only [h, if_true]
  · simp only [Bool.not_eq_true] at h
    simp only [h, Bool.false_eq_true, if_false]

/-- The provider loop of `fetchMain` in closed form: the attempts are the
names in order, the success count counts the successful providers, the
total adds the successful counts, and the writes concatenate every
provider's writes in order. -/
theorem foldl_fetchMainStep (behavior : String → FetchOutcome) (dryRun : Bool) :
    ∀ (names : List String) (st : List String × Nat × Nat × List (String × List String)),
      names.foldl (fetchMainStep behavior dryRun) st =
        (st.1 ++ names,
          st.2.1 + names.countP (fun n => (fetch_provider n (behavior n) dryRun).1.1),
          st.2.2.1 + (names.map (fun n =>
            if (fetch_provider n (behavior n) dryRun).1.1 then
              (fetch_provider n (behavior n) dryRun).1.2 else 0)).sum,
          st.2.2.2 ++ (names.map (fun n => (fetch_provider n (behavior n) dryRun).2)).flatten) := by
  intro names
  induction names with
  | nil => intro st; simp
  | cons a t ih =>
    intro st
    rw [List.foldl_cons, ih, fetchMainStep]
    simp only [List.countP_cons, List.map_cons, List.sum_cons, List.flatten_cons,
      Prod.mk.injEq, List.append_assoc, List.singleton_append]
    refine ⟨trivial, ?_, ?_, trivial⟩ <;> omega

/-- Claim C5 — fetch failure isolation and batch exit: the provider loop
attempts every requested provider exactly once in order regardless of
other providers' outcomes, the batch's writes are the concatenation of
each provider's own writes (so one provider's failure cannot suppress
another's output), and the exit code is 0 exactly when every requested
provider succeeded. -/
theorem fetch_batch_isolation : ∀ (providersArg : List String)
    (behavior : String → FetchOutcome) (dryRun : Bool),
    (fetchMain providersArg behavior dryRun).attempts = requestedProviders providersArg ∧
    (fetchMain providersArg behavior dryRun).writes =
      ((requestedProviders providersArg).map
        (fun n => (fetch_provider n (behavior n) dryRun).2)).flatten ∧
    ((fetchMain providersArg behavior dryRun).exitCode = 0 ↔
      ∀ n ∈ requestedProviders providersArg,
        (fetch_provider n (behavior n) dryRun).1.1 = true) := by
  intro providersArg behavior dryRun
  rw [fetchMain]
  simp only [foldl_fetchMainStep behavior dryRun (requestedProviders providersArg)]
  refine ⟨by simp, by simp, ?_⟩
  simp only [Nat.zero_add]
  constructor
  · intro h
    by_cases hc : (requestedProviders providersArg).countP
        (fun n => (fetch_provider n (behavior n) dryRun).1.1) =
        (requestedProviders providersArg).length
    · exact fun n hn => List.countP_eq_length.mp hc n hn
    · rw [if_neg hc] at h
      exact absurd h (by norm_num)
  · intro h
    rw [if_pos (List.countP_eq_length.mpr h)]

/-- Claim C6 — zero-CIDR atomicity: a provider whose parser yields an
empty list fails with count 0 and performs no file write, for any provider
name and in both dry-run modes. -/
theorem fetch_zero_cidr_atomicity : ∀ (name : String) (dryRun : Bool),
    fetch_provider name (FetchOutcome.parsed []) dryRun = ((false, 0), []) := by
  intro name dryRun
  rw [fetch_provider]
  cases h : lookupProvider name with
  | none => rfl
  | some config => rfl

/-- Claim C7 — fetcher persistence normal form: a known provider whose
parse succeeds with a non-empty list writes exactly the deduplicated,
lexicographically sorted entries to its canonical output file and reports
their count; the written list has no duplicates, is sorted, and contains
exactly the parsed strings. -/
theorem fetch_persist_normal_form : ∀ (name : String) (config : ProviderConfig)
    (cidrs : List String), lookupProvider name = some config → cidrs ≠ [] →
    FetchPersistSpec name config cidrs := by
  intro name config cidrs hlook hne
  have hie : cidrs.isEmpty = false := by
    cases hc : cidrs.isEmpty
    · rfl
    · exact absurd (List.isEmpty_iff.mp hc) hne
  refine ⟨?_, ?_, ?_, fun s => ?_⟩
  · rw [fetch_provider, hlook]
    simp only [hie, Bool.false_eq_true, if_false]
  · rw [sortedDedup]
    exact List.sorted_insertionSort _ _
  · rw [sortedDedup]
    exact ((List.perm_insertionSort _ _).nodup_iff).mpr (List.nodup_dedup cidrs)
  · rw [sortedDedup, (List.perm_insertionSort _ _).mem_iff, List.mem_dedup]

/-- Concrete instantiation of `fetch_persist_normal_form` at the `aws`
provider with an unsorted, duplicated parse result. -/
theorem fetch_persist_normal_form_witness :
    FetchPersistSpec ("aws")
      ⟨"https://ip-ranges.amazonaws.com/ip-ranges.json", "aws_json",
        "lists/providers/aws.txt"⟩
      [("10.0.0.0/8"), ("1.2.3.0/24"), ("10.0.0.0/8")] :=
  fetch_persist_normal_form ("aws") _ _ (by decide) (by decide)

/-- Claim C10 — the Tor parser extracts without validating: every line
starting with `"ExitAddress "` that has a second whitespace token
contributes that token with `/32` appended, even when it is not an IP
address — concretely, `"ExitAddress notanip 443"` yields `"notanip/32"`,
which `ip_network` rejects — whereas every string kept by the Linode
parser is a valid IPv4 network and every string kept by the Vultr filter
is a valid network. -/
theorem tor_parser_no_validation :
    (∀ content line ip, line ∈ pySplitChar '\n' content →
      listStartsWith ("ExitAddress ").data line.data = true →
      (pySplitWs line)[1]? = some ip →
      (ip ++ ("/32")) ∈ parse_tor_exit content) ∧
    (parse_tor_exit ("ExitAddress notanip 443") = [("notanip/32")]) ∧
    (ip_network ("notanip/32") = .error (notNetworkMsg ("notanip/32"))) ∧
    (∀ content s, s ∈ parse_linode_text content →
      ∃ a p, ip_network s = .ok (.v4 a p)) ∧
    (∀ regexMatches s, s ∈ parse_vultr_html regexMatches →
      ∃ net, ip_network s = .ok net) := by
  refine ⟨?_, by decide, by rfl, ?_, ?_⟩
  · intro content line ip hmem hpre hip
    refine List.mem_filterMap.mpr ⟨line, hmem, ?_⟩
    rw [torLineToCidr, if_pos hpre, hip]
  · intro content s hs
    obtain ⟨l, -, hsome⟩ := List.mem_filterMap.mp hs
    rw [linodeLineToCidr] at hsome
    dsimp only at hsome
    split at hsome
    · exact absurd hsome (by simp)
    · split at hsome
      · exact absurd hsome (by simp)
      · split at hsome
        · rename_i network heq
          cases network with
          | v4 a p =>
            simp only [IPNet.version, if_true, Option.some.injEq] at hsome
            exact ⟨a, p, hsome ▸ heq⟩
          | v6 a p =>
            rw [if_neg (by norm_num [IPNet.version])] at hsome
            exact absurd hsome (by simp)
        · exact absurd hsome (by simp)
  · intro regexMatches s hs
    rw [parse_vultr_html, List.mem_dedup] at hs
    obtain ⟨m, -, hsome⟩ := List.mem_filterMap.mp hs
    split at hsome
    · rename_i net heq
      simp only [Option.some.injEq] at hsome
      exact ⟨net, hsome ▸ heq⟩
    · exact absurd hsome (by simp)

/-- Concrete instantiation of the Tor clause of
`tor_parser_no_validation` on the literal line from the claim. -/
theorem tor_parser_no_validation_witness :
    (("notanip") ++ ("/32")) ∈ parse_tor_exit ("ExitAddress notanip 443") :=
  tor_parser_no_validation.1 ("ExitAddress notanip 443")
    ("ExitAddress notanip 443") ("notanip") (by decide) (by decide) (by decide)

end IpBlockLists
